import Mathlib

/-
Verification development for the NT module-introspection library
(Common::Utility::NT::Library in common/utility/nt.cpp).

The code is shallowly embedded: process memory is a byte map from
addresses to byte values, a loaded module is its base address, the OS
loader and export-resolution capabilities are parameters, and the
unbounded C while-loops become fuel-indexed structural recursions.
All multi-byte fields are read little-endian, matching the PE/COFF
x64 layout the source assumes:
  DOS header: e_magic at 0 (2 bytes, 0x5A4D), e_lfanew at 60 (4 bytes);
  NT headers: FileHeader.NumberOfSections at +6 (2 bytes),
    FileHeader.SizeOfOptionalHeader at +20 (2 bytes), OptionalHeader at +24;
  optional header: AddressOfEntryPoint at +16, SizeOfImage at +56,
    DataDirectory at +112 with 8-byte entries (the import dir is index 1,
    the TLS dir is index 9);
  each import descriptor is 20 bytes: OriginalFirstThunk at +0, Name at
    +12, FirstThunk at +16; thunk entries are 8 bytes;
  TLS directory: AddressOfCallBacks at +24 (8 bytes, absolute address).
-/

namespace NT

/-- Process memory: a total byte map from addresses to byte values. -/
abbrev Memory := Nat → Nat

/-- Read one byte, masked to 8 bits as the hardware would deliver it. -/
def readByte (mem : Memory) (a : Nat) : Nat := mem a % 256

/-- Read k bytes little-endian starting at address a. -/
def readLE (mem : Memory) (a : Nat) : Nat → Nat
  | 0 => 0
  | k+1 => readByte mem a + 256 * readLE mem (a+1) k

/-- Read a 16-bit little-endian value. -/
def read16 (mem : Memory) (a : Nat) : Nat := readLE mem a 2

/-- Read a 32-bit little-endian value. -/
def read32 (mem : Memory) (a : Nat) : Nat := readLE mem a 4

/-- Read a 64-bit little-endian value. -/
def read64 (mem : Memory) (a : Nat) : Nat := readLE mem a 8

/-- A loaded module handle: the HMODULE is the image base address, with 0
playing the role of the null handle. -/
structure Library where
  m_Module : Nat
deriving DecidableEq

/-- IMAGE_DOS_SIGNATURE, the two-byte magic 0x5A4D at the start of a valid
image. -/
def IMAGE_DOS_SIGNATURE : Nat := 0x5A4D

/-- Library::GetPtr: the base address as a byte pointer. -/
def GetPtr (lib : Library) : Nat := lib.m_Module

/-- Library::GetDOSHeader: reinterprets the base address as the DOS header;
no validity gate, mirroring the source. -/
def GetDOSHeader (lib : Library) : Nat := GetPtr lib

/-- Library::IsValid: non-null handle and the DOS magic matches. -/
def IsValid (mem : Memory) (lib : Library) : Bool :=
  lib.m_Module ≠ 0 && read16 mem (GetDOSHeader lib) = IMAGE_DOS_SIGNATURE

/-- Library::GetNTHeaders: base plus e_lfanew (the 4-byte field at offset 60
of the DOS header), or the null pointer 0 on an invalid module. -/
def GetNTHeaders (mem : Memory) (lib : Library) : Nat :=
  if IsValid mem lib then GetPtr lib + read32 mem (GetDOSHeader lib + 60) else 0

/-- Library::GetOptionalHeader: address of NTHeaders.OptionalHeader, which
lives at offset 24 of the NT headers, or 0 on an invalid module. -/
def GetOptionalHeader (mem : Memory) (lib : Library) : Nat :=
  if IsValid mem lib then GetNTHeaders mem lib + 24 else 0

/-- Library::GetRelativeEntryPoint: OptionalHeader.AddressOfEntryPoint, at
offset 16 of the optional header, or 0 on an invalid module. -/
def GetRelativeEntryPoint (mem : Memory) (lib : Library) : Nat :=
  if IsValid mem lib then read32 mem (GetNTHeaders mem lib + 24 + 16) else 0

/-- Library::GetEntryPoint: base plus relative entry point, or the null
pointer 0 on an invalid module. -/
def GetEntryPoint (mem : Memory) (lib : Library) : Nat :=
  if IsValid mem lib then GetPtr lib + GetRelativeEntryPoint mem lib else 0

/-- The loop body of Library::GetSectionHeaders: starting at section record
address s, visit n consecutive 40-byte IMAGE_SECTION_HEADER records,
collecting each non-null record address (the null check mirrors the
source; a null record is skipped with only a debug message). -/
def collectSections (mem : Memory) : Nat → Nat → List Nat
  | 0, _ => []
  | n+1, s =>
    if s ≠ 0 then s :: collectSections mem n (s + 40)
    else collectSections mem n (s + 40)

/-- Library::GetSectionHeaders: IMAGE_FIRST_SECTION is the address just past
the optional header, namely ntHeaders + 24 + SizeOfOptionalHeader, and
FileHeader.NumberOfSections records are visited. Note the source performs
no validity gate here: GetNTHeaders may return the null pointer 0 and the
counts are then read from low memory. -/
def GetSectionHeaders (mem : Memory) (lib : Library) : List Nat :=
  collectSections mem
    (read16 mem (GetNTHeaders mem lib + 6))
    (GetNTHeaders mem lib + 24 + read16 mem (GetNTHeaders mem lib + 20))

/-- PAGE_EXECUTE_READWRITE, the protection constant 0x40 requested by
Library::Unprotect. -/
def PAGE_EXECUTE_READWRITE : Nat := 0x40

/-- Per-address memory-protection state of the process. -/
abbrev Protections := Nat → Nat

/-- The protection effect of the VirtualProtect system call: sets newProt on
every address of the half-open range starting at addr of the given size,
and hands back the previous protection through the out parameter (second
component). -/
def VirtualProtect (prot : Protections) (addr size newProt : Nat) :
    Protections × Nat :=
  (fun a => if addr ≤ a ∧ a < addr + size then newProt else prot a, prot addr)

/-- OptionalHeader.SizeOfImage, the 4-byte field at offset 56 of the optional
header. -/
def SizeOfImage (mem : Memory) (lib : Library) : Nat :=
  read32 mem (GetOptionalHeader mem lib + 56)

/-- Library::Unprotect: on an invalid module returns with no effect;
otherwise one VirtualProtect call over the whole image range, the returned
previous protection being discarded. -/
def Unprotect (mem : Memory) (lib : Library) (prot : Protections) :
    Protections :=
  if IsValid mem lib then
    (VirtualProtect prot (GetPtr lib) (SizeOfImage mem lib)
      PAGE_EXECUTE_READWRITE).1
  else prot

/-- Library::Free: on a valid module calls FreeLibrary and nulls the handle;
otherwise does nothing. The Bool records whether FreeLibrary was invoked. -/
def Free (mem : Memory) (lib : Library) : Library × Bool :=
  if IsValid mem lib then (Library.mk 0, true) else (lib, false)

/-- The while-loop of Library::GetTlsCallbacks: starting at slot address a,
collect consecutive 8-byte callback pointers until a null slot. The C loop
has no bound, hence the fuel. -/
def collectTls (mem : Memory) : Nat → Nat → List Nat
  | 0, _ => []
  | f+1, a =>
    if read64 mem a = 0 then []
    else read64 mem a :: collectTls mem f (a + 8)

/-- Library::GetTlsCallbacks: reads DataDirectory 9 (TLS) VirtualAddress at
offset 112 + 9*8 = 184 of the optional header; if zero returns the empty
vector, otherwise walks the callback array whose absolute address is the
8-byte AddressOfCallBacks field at offset 24 of the TLS directory. The
source performs no validity gate: on an invalid module GetOptionalHeader
is the null pointer 0 and the directory entry is read from low memory. -/
def GetTlsCallbacks (mem : Memory) (lib : Library) (fuel : Nat) : List Nat :=
  if read32 mem (GetOptionalHeader mem lib + 184) = 0 then []
  else collectTls mem fuel
    (read64 mem (GetPtr lib + read32 mem (GetOptionalHeader mem lib + 184) + 24))

/-- The external capabilities the library delegates to: the OS loader
(GetModuleHandleA on a module name) and the export resolver (GetProc by
symbol name, declared in the class header, and GetProcAddress by ordinal).
Failure is the null address 0. Strings are byte lists. -/
structure Externals where
  GetModuleHandleA : List Nat → Nat
  GetProc : Nat → List Nat → Nat
  GetProcAddress : Nat → Nat → Nat

/-- ASCII lower-casing of one byte, as the C runtime tolower used by
_stricmp does for the ASCII range. -/
def toLowerB (c : Nat) : Nat := if 65 ≤ c ∧ c ≤ 90 then c + 32 else c

/-- Case-insensitive string equality: the _stricmp comparison returning 0. -/
def striEq (a b : List Nat) : Bool :=
  a.map toLowerB == b.map toLowerB

/-- Read the null-terminated byte string at address a, with fuel bounding
the scan. -/
def readCString (mem : Memory) : Nat → Nat → List Nat
  | 0, _ => []
  | f+1, a =>
    if readByte mem a = 0 then []
    else readByte mem a :: readCString mem f (a + 1)

/-- Low 28 bits of a thunk value: the source masks with 0xFFFFFFF before
the ordinal test. -/
def low28 (x : Nat) : Nat := x % 0x10000000

/-- One iteration of the inner thunk loop of Library::GetIATEntry for the
original-thunk slot o and address-thunk slot t: if the bound value in t
equals the resolved target, the slot address t is returned; otherwise, if
the low 28 bits of the original thunk are at most 0xFFFF they are resolved
as an ordinal against the other module and compared with the target. -/
def checkPair (mem : Memory) (ext : Externals) (ob target o t : Nat) :
    Option Nat :=
  if read64 mem t = target then some t
  else if low28 (read64 mem o) ≤ 0xFFFF then
    (if ext.GetProcAddress ob (low28 (read64 mem o)) = target then some t
     else none)
  else none

/-- The inner while-loop of Library::GetIATEntry: lock-step walk of the
original-thunk array at o and the address-thunk array at t, stopping at a
zero original-thunk entry, returning the first slot checkPair accepts. -/
def scanThunks (mem : Memory) (ext : Externals) (ob target : Nat) :
    Nat → Nat → Nat → Option Nat
  | 0, _, _ => none
  | f+1, o, t =>
    if read64 mem o = 0 then none
    else match checkPair mem ext ob target o t with
      | some s => some s
      | none => scanThunks mem ext ob target f (o + 8) (t + 8)

/-- The outer while-loop of Library::GetIATEntry: walk of the 20-byte import
descriptors starting at d, stopping when the Name field (offset 12) is
zero; a descriptor whose name string (at base + Name) matches mName
case-insensitively has its thunk arrays scanned, and only a found slot
ends the walk early. -/
def scanDescs (mem : Memory) (ext : Externals) (base ob target : Nat)
    (mName : List Nat) (sF tF : Nat) : Nat → Nat → Option Nat
  | 0, _ => none
  | f+1, d =>
    if read32 mem (d + 12) = 0 then none
    else if striEq (readCString mem sF (base + read32 mem (d + 12))) mName
        = true then
      match scanThunks mem ext ob target tF
          (base + read32 mem d) (base + read32 mem (d + 16)) with
      | some s => some s
      | none => scanDescs mem ext base ob target mName sF tF f (d + 20)
    else scanDescs mem ext base ob target mName sF tF f (d + 20)

/-- Library::GetIATEntry: gate on validity of this module, resolve the other
module by name and gate on its validity, resolve the target symbol and
fail on null, fail on a null optional header, then scan the import
descriptors starting at base + DataDirectory 1 (import) VirtualAddress,
read at offset 112 + 8 = 120 of the optional header. The null pointer 0
is the not-found sentinel. -/
def GetIATEntry (mem : Memory) (ext : Externals) (lib : Library)
    (mName pName : List Nat) (sF tF dF : Nat) : Nat :=
  if IsValid mem lib = false then 0
  else if IsValid mem (Library.mk (ext.GetModuleHandleA mName)) = false then 0
  else if ext.GetProc (ext.GetModuleHandleA mName) pName = 0 then 0
  else if GetOptionalHeader mem lib = 0 then 0
  else
    match scanDescs mem ext (GetPtr lib) (ext.GetModuleHandleA mName)
        (ext.GetProc (ext.GetModuleHandleA mName) pName) mName sF tF dF
        (GetPtr lib + read32 mem (GetOptionalHeader mem lib + 120)) with
    | some s => s
    | none => 0

/-- Library::GetChecksum, with the file content delegated to the file-system
collaborator: none means the backing file could not be opened. Every byte
is accumulated as an unsigned 8-bit value into an unsigned 32-bit
accumulator with wraparound. -/
def GetChecksum (file : Option (List Nat)) : Nat :=
  match file with
  | none => 0
  | some bs => bs.foldl (fun acc b => (acc + b % 256) % 4294967296) 0

/-- Modelled from the spec: a variant of the import-descriptor walk whose
terminator test is the one the spec words describe, namely the first
descriptor ALL of whose fields are zero, rather than the Name-field test
the source performs. Used only to compare against scanDescs. -/
def descAllZero (mem : Memory) (d : Nat) : Bool :=
  read32 mem d = 0 && read32 mem (d + 4) = 0 && read32 mem (d + 8) = 0 &&
  read32 mem (d + 12) = 0 && read32 mem (d + 16) = 0

/-- Modelled from the spec: the descriptor walk stopping at the first
all-zero descriptor, otherwise identical to scanDescs. -/
def scanDescsSpecStop (mem : Memory) (ext : Externals) (base ob target : Nat)
    (mName : List Nat) (sF tF : Nat) : Nat → Nat → Option Nat
  | 0, _ => none
  | f+1, d =>
    if descAllZero mem d then none
    else if striEq (readCString mem sF (base + read32 mem (d + 12))) mName
        = true then
      match scanThunks mem ext ob target tF
          (base + read32 mem d) (base + read32 mem (d + 16)) with
      | some s => some s
      | none => scanDescsSpecStop mem ext base ob target mName sF tF f (d + 20)
    else scanDescsSpecStop mem ext base ob target mName sF tF f (d + 20)

/-- Start address of the import descriptor array: base plus DataDirectory 1
(import) VirtualAddress, read at offset 120 of the optional header. -/
def importDescStart (mem : Memory) (lib : Library) : Nat :=
  GetPtr lib + read32 mem (GetOptionalHeader mem lib + 120)

/-- Address of the k-th 20-byte import descriptor. -/
def descAt (mem : Memory) (lib : Library) (k : Nat) : Nat :=
  importDescStart mem lib + 20 * k

/-- The slot s is a bound import-address-table slot for the requested
module and symbol: some descriptor k has a nonzero Name matching mName
case-insensitively, s is entry i of its address-thunk array, entry i of
its original-thunk array is nonzero, and either the bound value in s
equals the resolved target address, or the low 28 bits of the original
thunk resolve by ordinal to the target address. -/
def IATSlotSpec (mem : Memory) (ext : Externals) (lib : Library)
    (mName pName : List Nat) (sF : Nat) (s : Nat) : Prop :=
  ∃ k i,
    read32 mem (descAt mem lib k + 12) ≠ 0 ∧
    striEq (readCString mem sF
      (GetPtr lib + read32 mem (descAt mem lib k + 12))) mName = true ∧
    s = GetPtr lib + read32 mem (descAt mem lib k + 16) + 8 * i ∧
    read64 mem (GetPtr lib + read32 mem (descAt mem lib k) + 8 * i) ≠ 0 ∧
    (read64 mem s = ext.GetProc (ext.GetModuleHandleA mName) pName ∨
     (low28 (read64 mem
        (GetPtr lib + read32 mem (descAt mem lib k) + 8 * i)) ≤ 0xFFFF ∧
      ext.GetProcAddress (ext.GetModuleHandleA mName)
        (low28 (read64 mem
          (GetPtr lib + read32 mem (descAt mem lib k) + 8 * i)))
        = ext.GetProc (ext.GetModuleHandleA mName) pName))

/-- Build a memory from an association list of address/byte pairs; unlisted
addresses read as 0. -/
def memOf (l : List (Nat × Nat)) : Memory :=
  fun a => ((l.lookup a).getD 0)

/-- A concrete well-formed x64 image at base 64: DOS magic MZ, e_lfanew 64
(NT headers at 128), 2 sections, SizeOfOptionalHeader 240, entry point 17,
SizeOfImage 512, import directory RVA 500 with one descriptor importing
module "m" (byte 109): original thunks 0x100000 and ordinal 7, address
thunks 111 and 333; TLS directory RVA 800 whose callback array at absolute
address 920 holds 1001 and 1002 before the null terminator. -/
def imgMem : Memory := memOf
  [(64, 77), (65, 90),
   (124, 64),
   (134, 2),
   (148, 240),
   (168, 17),
   (209, 2),
   (272, 244), (273, 1),
   (336, 32), (337, 3),
   (564, 88), (565, 2), (576, 48), (577, 2), (580, 128), (581, 2),
   (624, 109),
   (666, 16),
   (672, 7),
   (704, 111),
   (712, 77), (713, 1),
   (888, 152), (889, 3),
   (920, 233), (921, 3),
   (928, 234), (929, 3)]

/-- The module handle for the concrete image. -/
def libW : Library := Library.mk 64

/-- Concrete externals for the image: module name "m" resolves to base 64,
symbol name "f" (byte 102) in it resolves to address 777, and ordinal 7
also resolves to 777. -/
def extW : Externals where
  GetModuleHandleA := fun n => if n = [109] then 64 else 0
  GetProc := fun h p => if h = 64 ∧ p = [102] then 777 else 0
  GetProcAddress := fun h o => if h = 64 ∧ o = 7 then 777 else 0

/-- Externals that resolve nothing, for scenarios where resolution is given
directly as a target address. -/
def extZero : Externals where
  GetModuleHandleA := fun _ => 0
  GetProc := fun _ _ => 0
  GetProcAddress := fun _ _ => 0

/-- An initial protection state assigning code 2 everywhere. -/
def protW : Protections := fun _ => 2

/-- Memory for the invalid-module scenario: the module base is the null
pointer 0, and low memory (where the source then reads header fields
through the null NT-headers and optional-header pointers) holds a section
count of 1 at address 6, a TLS directory RVA 16 at address 184, a callback
array address 48 at address 40 and one callback value 7 at address 48. -/
def memC2 : Memory := memOf [(6, 1), (184, 16), (40, 48), (48, 7)]

/-- Memory for the descriptor-scan scenario at base 0, target address 5:
descriptor at 100 imports "m" with a single non-matching thunk pair
(original 0x100000, bound 9), descriptor at 120 also imports "m" with a
matching pair (original 0x100000, bound 5 at slot 600), terminator at
140. -/
def memC3 : Memory := memOf
  [(100, 200), (112, 44), (113, 1), (116, 144), (117, 1),
   (120, 244), (121, 1), (132, 44), (133, 1), (136, 88), (137, 2),
   (300, 109),
   (202, 16),
   (400, 9),
   (502, 16),
   (600, 5)]

/-- Memory for the terminator scenario at base 0, target address 5: the
descriptor at 100 has Name 0 but a nonzero FirstThunk 9, so it is not
all-zero; the descriptor at 120 imports "m" with a matching thunk pair
(original 0x100000, bound 5 at slot 400). -/
def memC4 : Memory := memOf
  [(116, 9),
   (120, 200), (132, 44), (133, 1), (136, 144), (137, 1),
   (300, 109),
   (202, 16),
   (400, 5)]


/-- Folding the checksum step over a byte list starting from a reduced
accumulator computes the masked running sum modulo 2 to the 32. -/
theorem checksum_foldl_mod (bs : List Nat) :
    ∀ acc : Nat,
    bs.foldl (fun a b => (a + b % 256) % 4294967296) (acc % 4294967296)
      = (acc + (bs.map (fun b => b % 256)).sum) % 4294967296 := by
  induction bs with
  | nil => intro acc; simp
  | cons b t ih =>
    intro acc
    simp only [List.foldl_cons, List.map_cons, List.sum_cons]
    rw [Nat.mod_add_mod, ih (acc + b % 256)]
    ring_nf

/-- Mapping the unsigned 8-bit cast over bytes already below 256 is the
identity. -/
theorem map_mod256_eq (bs : List Nat) (h : ∀ b ∈ bs, b < 256) :
    bs.map (fun b => b % 256) = bs := by
  induction bs with
  | nil => rfl
  | cons b t ih =>
    simp only [List.map_cons]
    rw [Nat.mod_eq_of_lt (h b (by simp)), ih (fun x hx => h x (by simp [hx]))]

/-- C8: GetChecksum returns 0 when the backing file cannot be opened,
returns 0 for an empty file, returns 6 for content 1, 2, 3, and for any
readable byte sequence returns the sum of the bytes, each taken as an
unsigned 8-bit value, modulo 2 to the 32, via a wrapping 32-bit
accumulator. -/
theorem getChecksum_correct :
    GetChecksum none = 0 ∧ GetChecksum (some []) = 0 ∧
    GetChecksum (some [1, 2, 3]) = 6 ∧
    ∀ bs : List Nat, (∀ b ∈ bs, b < 256) →
      GetChecksum (some bs) = bs.sum % 4294967296 := by
  refine ⟨rfl, rfl, by decide, ?_⟩
  intro bs h
  calc GetChecksum (some bs)
      = bs.foldl (fun a b => (a + b % 256) % 4294967296) 0 := rfl
    _ = bs.foldl (fun a b => (a + b % 256) % 4294967296) (0 % 4294967296) := by
        norm_num
    _ = (0 + (bs.map (fun b => b % 256)).sum) % 4294967296 :=
        checksum_foldl_mod bs 0
    _ = bs.sum % 4294967296 := by rw [map_mod256_eq bs h, Nat.zero_add]

/-- Witness for C8 at the concrete byte content 100, 200. -/
theorem getChecksum_correct_witness :
    GetChecksum (some [100, 200]) = 300 :=
  (getChecksum_correct.2.2.2 [100, 200] (by decide)).trans (by decide)

/-- C9: Unprotect leaves the protection state unchanged on an invalid
module; on a valid module every address of the image range from base to
base plus SizeOfImage receives PAGE_EXECUTE_READWRITE, every address
outside keeps its previous protection, and nothing restores the old
protection afterwards. -/
theorem unprotect_correct (mem : Memory) (lib : Library) (prot : Protections) :
    (IsValid mem lib = false → Unprotect mem lib prot = prot) ∧
    (IsValid mem lib = true →
      (∀ a, GetPtr lib ≤ a → a < GetPtr lib + SizeOfImage mem lib →
        Unprotect mem lib prot a = PAGE_EXECUTE_READWRITE) ∧
      (∀ a, a < GetPtr lib ∨ GetPtr lib + SizeOfImage mem lib ≤ a →
        Unprotect mem lib prot a = prot a)) := by
  constructor
  · intro h
    simp [Unprotect, h]
  · intro h
    constructor
    · intro a h1 h2
      simp [Unprotect, h, VirtualProtect, h1, h2]
    · intro a ha
      simp only [Unprotect, h, VirtualProtect, if_true]
      rw [if_neg]
      omega

/-- Witness for C9 at the concrete image: address 100 lies inside the range
from 64 to 576 and becomes RWX, address 600 lies outside and keeps its
previous protection. -/
theorem unprotect_correct_witness :
    Unprotect imgMem libW protW 100 = PAGE_EXECUTE_READWRITE ∧
    Unprotect imgMem libW protW 600 = protW 600 :=
  ⟨((unprotect_correct imgMem libW protW).2 (by decide)).1 100 (by decide)
      (by decide),
   ((unprotect_correct imgMem libW protW).2 (by decide)).2 600 (by decide)⟩

/-- C10: Free on a valid module nulls the handle after calling FreeLibrary,
making IsValid false and every validity-gated query return its sentinel,
and a second Free through the same handle does not release again; Free on
an invalid module changes nothing and does not call FreeLibrary. -/
theorem free_correct (mem : Memory) (lib : Library) :
    (IsValid mem lib = true →
      (Free mem lib).1.m_Module = 0 ∧ (Free mem lib).2 = true ∧
      IsValid mem (Free mem lib).1 = false ∧
      GetNTHeaders mem (Free mem lib).1 = 0 ∧
      GetOptionalHeader mem (Free mem lib).1 = 0 ∧
      GetRelativeEntryPoint mem (Free mem lib).1 = 0 ∧
      GetEntryPoint mem (Free mem lib).1 = 0 ∧
      (∀ (ext : Externals) (mName pName : List Nat) (sF tF dF : Nat),
        GetIATEntry mem ext (Free mem lib).1 mName pName sF tF dF = 0) ∧
      Free mem (Free mem lib).1 = ((Free mem lib).1, false)) ∧
    (IsValid mem lib = false → Free mem lib = (lib, false)) := by
  constructor
  · intro h
    have hfree : Free mem lib = (Library.mk 0, true) := by simp [Free, h]
    have hinv : IsValid mem (Library.mk 0) = false := by simp [IsValid]
    rw [hfree]
    refine ⟨rfl, rfl, hinv, ?_, ?_, ?_, ?_, ?_, ?_⟩
    · simp [GetNTHeaders, hinv]
    · simp [GetOptionalHeader, hinv]
    · simp [GetRelativeEntryPoint, hinv]
    · simp [GetEntryPoint, hinv]
    · intro ext mName pName sF tF dF
      simp [GetIATEntry, hinv]
    · simp [Free, hinv]
  · intro h
    simp [Free, h]

/-- Witness for C10 at the concrete valid image. -/
theorem free_correct_witness :
    (Free imgMem libW).1.m_Module = 0 ∧
    IsValid imgMem (Free imgMem libW).1 = false ∧
    Free imgMem (Free imgMem libW).1 = ((Free imgMem libW).1, false) :=
  ⟨((free_correct imgMem libW).1 (by decide)).1,
   ((free_correct imgMem libW).1 (by decide)).2.2.1,
   ((free_correct imgMem libW).1 (by decide)).2.2.2.2.2.2.2.2⟩

/-- C2: on the invalid module with null base, the gated accessors do return
their sentinels, but GetSectionHeaders and GetTlsCallbacks perform no
validity gate: in the source they dereference the null pointer returned
by GetNTHeaders and GetOptionalHeader, modelled here as reads from low
memory, and return non-sentinel results instead of the empty list. -/
theorem invalid_module_accessors_bug :
    IsValid memC2 (Library.mk 0) = false ∧
    GetNTHeaders memC2 (Library.mk 0) = 0 ∧
    GetOptionalHeader memC2 (Library.mk 0) = 0 ∧
    GetIATEntry memC2 extZero (Library.mk 0) [109] [102] 4 4 4 = 0 ∧
    GetSectionHeaders memC2 (Library.mk 0) = [24] ∧
    GetTlsCallbacks memC2 (Library.mk 0) 4 = [7] := by decide

/-- C4 counterexample: the descriptor at address 100 is not all-zero (its
FirstThunk field is 9), yet the source walk treats it as the terminator
because its Name field is zero and returns not-found, while the walk the
spec words describe, stopping only at an all-zero descriptor, goes on and
finds the matching slot 400. -/
theorem descTerminator_counterexample :
    descAllZero memC4 100 = false ∧
    scanDescs memC4 extZero 0 0 5 [109] 4 4 4 100 = none ∧
    scanDescsSpecStop memC4 extZero 0 0 5 [109] 4 4 4 100 = some 400 := by
  decide

/-- C4 amended: the outer descriptor walk stops exactly at the first
descriptor whose Name field is zero; the other fields play no part in the
terminator test, and a descriptor with nonzero Name whose name does not
match is skipped rather than terminating the walk. -/
theorem scanDescs_stop_amended (mem : Memory) (ext : Externals)
    (base ob target : Nat) (mName : List Nat) (sF tF f d : Nat) :
    (read32 mem (d + 12) = 0 →
      scanDescs mem ext base ob target mName sF tF (f+1) d = none) ∧
    (read32 mem (d + 12) ≠ 0 →
      striEq (readCString mem sF (base + read32 mem (d + 12))) mName = false →
      scanDescs mem ext base ob target mName sF tF (f+1) d
        = scanDescs mem ext base ob target mName sF tF f (d + 20)) := by
  constructor
  · intro h
    simp [scanDescs, h]
  · intro h1 h2
    simp [scanDescs, h1, h2]

/-- Witness for the amended C4: at the concrete memory the walk stops at the
descriptor with zero Name field. -/
theorem scanDescs_stop_amended_witness :
    scanDescs memC4 extZero 0 0 5 [109] 4 4 4 100 = none :=
  (scanDescs_stop_amended memC4 extZero 0 0 5 [109] 4 4 3 100).1 (by decide)

/-- C5: for a thunk pair whose bound value does not equal the resolved
target, the slot is returned through the fallback path exactly when the
low 28 bits of the original thunk entry are at most 0xFFFF and resolving
them as an ordinal against the other module yields the target address. -/
theorem checkPair_ordinal_iff (mem : Memory) (ext : Externals)
    (ob target o t : Nat) (h : read64 mem t ≠ target) :
    checkPair mem ext ob target o t = some t ↔
      (low28 (read64 mem o) ≤ 0xFFFF ∧
       ext.GetProcAddress ob (low28 (read64 mem o)) = target) := by
  simp only [checkPair, if_neg h]
  by_cases h1 : low28 (read64 mem o) ≤ 0xFFFF
  · by_cases h2 : ext.GetProcAddress ob (low28 (read64 mem o)) = target
    · simp [h1, h2]
    · simp [h1, h2]
  · simp [h1]

/-- Witness for C5: the ordinal-only pair of the concrete image, original
thunk 7 and bound value 333 at slot 712, succeeds through the ordinal
path for target 777. -/
theorem checkPair_ordinal_iff_witness :
    checkPair imgMem extW 64 777 672 712 = some 712 :=
  (checkPair_ordinal_iff imgMem extW 64 777 672 712 (by decide)).mpr (by decide)

/-- The TLS callback loop collects exactly the k non-null slot values before
the first null slot, in array order, given enough fuel. -/
theorem collectTls_eq (mem : Memory) :
    ∀ (L : List Nat) (f a : Nat),
    (∀ i, i < L.length → read64 mem (a + 8 * i) = L.getD i 0) →
    (∀ x ∈ L, x ≠ 0) →
    read64 mem (a + 8 * L.length) = 0 →
    L.length < f →
    collectTls mem f a = L := by
  intro L
  induction L with
  | nil =>
    intro f a _ _ h3 hf
    cases f with
    | zero => omega
    | succ f =>
      simp only [List.length_nil, Nat.mul_zero, Nat.add_zero] at h3
      simp [collectTls, h3]
  | cons x xs ih =>
    intro f a h1 h2 h3 hf
    cases f with
    | zero => simp at hf
    | succ f =>
      have hx : read64 mem a = x := by
        have := h1 0 (by simp)
        simpa using this
      have hxne : x ≠ 0 := h2 x (by simp)
      simp only [collectTls, hx, if_neg hxne]
      congr 1
      apply ih
      · intro i hi
        have := h1 (i + 1) (by simpa using Nat.succ_lt_succ hi)
        rw [show a + 8 * (i + 1) = a + 8 + 8 * i by ring] at this
        simpa using this
      · exact fun y hy => h2 y (by simp [hy])
      · rw [show a + 8 + 8 * xs.length = a + 8 * (xs.length + 1) by ring]
        simpa using h3
      · simpa using hf

/-- C6: TLS-callback enumeration returns the empty sequence whenever the TLS
data-directory VirtualAddress is 0; otherwise, for a callback array of
non-null pointers followed by a null terminator, it returns exactly those
pointers in array order, stopping at the first null slot. -/
theorem getTlsCallbacks_correct (mem : Memory) (lib : Library) (fuel : Nat)
    (L : List Nat) :
    (read32 mem (GetOptionalHeader mem lib + 184) = 0 →
      GetTlsCallbacks mem lib fuel = []) ∧
    (read32 mem (GetOptionalHeader mem lib + 184) ≠ 0 →
      (∀ i, i < L.length →
        read64 mem
          (read64 mem
            (GetPtr lib + read32 mem (GetOptionalHeader mem lib + 184) + 24)
           + 8 * i) = L.getD i 0) →
      (∀ x ∈ L, x ≠ 0) →
      read64 mem
        (read64 mem
          (GetPtr lib + read32 mem (GetOptionalHeader mem lib + 184) + 24)
         + 8 * L.length) = 0 →
      L.length < fuel →
      GetTlsCallbacks mem lib fuel = L) := by
  constructor
  · intro h
    simp [GetTlsCallbacks, h]
  · intro h h1 h2 h3 hf
    simp only [GetTlsCallbacks, if_neg h]
    exact collectTls_eq mem L fuel _ h1 h2 h3 hf

/-- Witness for C6: the concrete image TLS array holds 1001 and 1002 before
the null terminator and enumeration returns exactly those. -/
theorem getTlsCallbacks_correct_witness :
    GetTlsCallbacks imgMem libW 4 = [1001, 1002] :=
  (getTlsCallbacks_correct imgMem libW 4 [1001, 1002]).2 (by decide) (by decide)
    (by decide) (by decide) (by decide)

/-- The section loop starting at a nonzero record address visits n records
40 bytes apart and collects them all in order. -/
theorem collectSections_eq (mem : Memory) :
    ∀ (n s : Nat), 0 < s →
    collectSections mem n s = (List.range n).map (fun i => s + 40 * i) := by
  intro n
  induction n with
  | zero => intro s _; simp [collectSections]
  | succ n ih =>
    intro s hs
    simp only [collectSections, if_pos (by omega : s ≠ 0)]
    rw [ih (s + 40) (by omega), List.range_succ_eq_map]
    simp only [List.map_cons, List.map_map, Nat.mul_zero, Nat.add_zero]
    have hfun : (fun i => s + 40 + 40 * i) = ((fun i => s + 40 * i) ∘ Nat.succ) := by
      funext i
      simp only [Function.comp_apply]
      omega
    rw [hfun]

/-- C7: on a valid image with N sections, section enumeration reads the
40-byte records starting immediately after the optional header, at
NTHeaders + 24 + SizeOfOptionalHeader, and returns exactly N record
references in on-disk order. -/
theorem getSectionHeaders_correct (mem : Memory) (lib : Library)
    (_h : IsValid mem lib = true) :
    GetSectionHeaders mem lib =
      (List.range (read16 mem (GetNTHeaders mem lib + 6))).map
        (fun i => GetNTHeaders mem lib + 24
          + read16 mem (GetNTHeaders mem lib + 20) + 40 * i) :=
  collectSections_eq mem _ _ (by omega)

/-- Witness for C7: the concrete image has 2 sections and enumeration
returns the two record addresses 392 and 432 in order. -/
theorem getSectionHeaders_correct_witness :
    GetSectionHeaders imgMem libW = [392, 432] :=
  (getSectionHeaders_correct imgMem libW (by decide)).trans (by decide)

/-- A successful checkPair returns exactly the address-thunk slot, and the
slot either holds the target address or its original thunk resolves to
the target by ordinal. -/
theorem checkPair_some (mem : Memory) (ext : Externals) (ob target o t s : Nat)
    (h : checkPair mem ext ob target o t = some s) :
    s = t ∧ (read64 mem t = target ∨
      (low28 (read64 mem o) ≤ 0xFFFF ∧
       ext.GetProcAddress ob (low28 (read64 mem o)) = target)) := by
  simp only [checkPair] at h
  by_cases h1 : read64 mem t = target
  · rw [if_pos h1] at h
    have hts : t = s := by simpa using h
    exact ⟨hts.symm, Or.inl h1⟩
  · rw [if_neg h1] at h
    by_cases h2 : low28 (read64 mem o) ≤ 0xFFFF
    · rw [if_pos h2] at h
      by_cases h3 : ext.GetProcAddress ob (low28 (read64 mem o)) = target
      · rw [if_pos h3] at h
        have hts : t = s := by simpa using h
        exact ⟨hts.symm, Or.inr ⟨h2, h3⟩⟩
      · simp [h3] at h
    · simp [h2] at h

/-- A slot returned by the inner thunk walk is entry i of the address-thunk
array for some i with a nonzero original thunk, accepted by checkPair. -/
theorem scanThunks_sound (mem : Memory) (ext : Externals) (ob target : Nat) :
    ∀ (f o t s : Nat),
    scanThunks mem ext ob target f o t = some s →
    ∃ i, read64 mem (o + 8 * i) ≠ 0 ∧ s = t + 8 * i ∧
      (read64 mem (t + 8 * i) = target ∨
       (low28 (read64 mem (o + 8 * i)) ≤ 0xFFFF ∧
        ext.GetProcAddress ob (low28 (read64 mem (o + 8 * i))) = target)) := by
  intro f
  induction f with
  | zero => intro o t s h; simp [scanThunks] at h
  | succ f ih =>
    intro o t s h
    simp only [scanThunks] at h
    by_cases h0 : read64 mem o = 0
    · simp [h0] at h
    · rw [if_neg h0] at h
      cases hcp : checkPair mem ext ob target o t with
      | some r =>
        rw [hcp] at h
        have hrs : r = s := by simpa using h
        subst hrs
        obtain ⟨hst, hdisj⟩ := checkPair_some mem ext ob target o t r hcp
        subst hst
        refine ⟨0, ?_, ?_, ?_⟩
        · simpa using h0
        · simp
        · simpa using hdisj
      | none =>
        rw [hcp] at h
        obtain ⟨i, hi1, hi2, hi3⟩ := ih (o + 8) (t + 8) s h
        refine ⟨i + 1, ?_, ?_, ?_⟩
        · rw [show o + 8 * (i + 1) = o + 8 + 8 * i by ring]
          exact hi1
        · rw [show t + 8 * (i + 1) = t + 8 + 8 * i by ring]
          exact hi2
        · rw [show t + 8 * (i + 1) = t + 8 + 8 * i by ring,
              show o + 8 * (i + 1) = o + 8 + 8 * i by ring]
          exact hi3

/-- A slot returned by the outer descriptor walk comes from the k-th
descriptor after the start, whose Name is nonzero and matches, through a
successful inner walk of its thunk arrays. -/
theorem scanDescs_sound (mem : Memory) (ext : Externals) (base ob target : Nat)
    (mName : List Nat) (sF tF : Nat) :
    ∀ (f d s : Nat),
    scanDescs mem ext base ob target mName sF tF f d = some s →
    ∃ k, read32 mem (d + 20 * k + 12) ≠ 0 ∧
      striEq (readCString mem sF (base + read32 mem (d + 20 * k + 12))) mName
        = true ∧
      scanThunks mem ext ob target tF (base + read32 mem (d + 20 * k))
        (base + read32 mem (d + 20 * k + 16)) = some s := by
  intro f
  induction f with
  | zero => intro d s h; simp [scanDescs] at h
  | succ f ih =>
    intro d s h
    simp only [scanDescs] at h
    by_cases h0 : read32 mem (d + 12) = 0
    · simp [h0] at h
    · rw [if_neg h0] at h
      by_cases h1 :
          striEq (readCString mem sF (base + read32 mem (d + 12))) mName = true
      · rw [if_pos h1] at h
        cases hst : scanThunks mem ext ob target tF (base + read32 mem d)
            (base + read32 mem (d + 16)) with
        | some r =>
          rw [hst] at h
          have hrs : r = s := by simpa using h
          subst hrs
          refine ⟨0, ?_, ?_, ?_⟩
          · simpa using h0
          · simpa using h1
          · simpa using hst
        | none =>
          rw [hst] at h
          obtain ⟨k, hk1, hk2, hk3⟩ := ih (d + 20) s h
          refine ⟨k + 1, ?_, ?_, ?_⟩ <;>
            rw [show d + 20 * (k + 1) = d + 20 + 20 * k by ring] <;>
            assumption
      · rw [if_neg h1] at h
        obtain ⟨k, hk1, hk2, hk3⟩ := ih (d + 20) s h
        refine ⟨k + 1, ?_, ?_, ?_⟩ <;>
          rw [show d + 20 * (k + 1) = d + 20 + 20 * k by ring] <;>
          assumption

/-- C1: import-slot lookup returns the null sentinel 0 when the target
symbol does not resolve, and any non-null result is the address of an IAT
slot bound to the resolved symbol: either its
current thunk value equals the resolved target address or its
ordinal-encoded original thunk resolves to that address, within a
descriptor whose module name matches the request. -/
theorem getIATEntry_correct (mem : Memory) (ext : Externals) (lib : Library)
    (mName pName : List Nat) (sF tF dF : Nat) :
    (ext.GetProc (ext.GetModuleHandleA mName) pName = 0 →
      GetIATEntry mem ext lib mName pName sF tF dF = 0) ∧
    (∀ s, GetIATEntry mem ext lib mName pName sF tF dF = s → s ≠ 0 →
      IATSlotSpec mem ext lib mName pName sF s) := by
  constructor
  · intro h
    simp [GetIATEntry, h]
  · intro s hs hne
    simp only [GetIATEntry] at hs
    by_cases h1 : IsValid mem lib = false
    · rw [if_pos h1] at hs
      exact absurd hs.symm hne
    · rw [if_neg h1] at hs
      by_cases h2 : IsValid mem (Library.mk (ext.GetModuleHandleA mName)) = false
      · rw [if_pos h2] at hs
        exact absurd hs.symm hne
      · rw [if_neg h2] at hs
        by_cases h3 : ext.GetProc (ext.GetModuleHandleA mName) pName = 0
        · rw [if_pos h3] at hs
          exact absurd hs.symm hne
        · rw [if_neg h3] at hs
          by_cases h4 : GetOptionalHeader mem lib = 0
          · rw [if_pos h4] at hs
            exact absurd hs.symm hne
          · rw [if_neg h4] at hs
            cases hsd : scanDescs mem ext (GetPtr lib)
                (ext.GetModuleHandleA mName)
                (ext.GetProc (ext.GetModuleHandleA mName) pName) mName sF tF dF
                (GetPtr lib + read32 mem (GetOptionalHeader mem lib + 120)) with
            | none =>
              rw [hsd] at hs
              exact absurd hs.symm hne
            | some r =>
              rw [hsd] at hs
              have hrs : r = s := hs
              subst hrs
              obtain ⟨k, hk1, hk2, hk3⟩ :=
                scanDescs_sound mem ext (GetPtr lib)
                  (ext.GetModuleHandleA mName)
                  (ext.GetProc (ext.GetModuleHandleA mName) pName) mName sF tF
                  dF _ r hsd
              obtain ⟨i, hi1, hi2, hi3⟩ :=
                scanThunks_sound mem ext (ext.GetModuleHandleA mName)
                  (ext.GetProc (ext.GetModuleHandleA mName) pName) tF _ _ r hk3
              exact ⟨k, i, hk1, hk2, hi2, hi1, hi2 ▸ hi3⟩

/-- Witness for C1: on the concrete image, looking up symbol "f" of module
"m" returns slot 712, and that slot satisfies the bound-slot property. -/
theorem getIATEntry_correct_witness :
    IATSlotSpec imgMem extW libW [109] [102] 4 712 :=
  (getIATEntry_correct imgMem extW libW [109] [102] 4 4 4).2 712 (by decide)
    (by decide)

/-- C3: every import descriptor is scanned: if each of the first n
descriptors has a nonzero Name and, when its name matches, an inner walk
that finds no slot, then a matching descriptor n whose inner walk finds
slot s makes the whole walk return s. In particular a name match alone
never ends the outer walk; only a found slot does. -/
theorem scanDescs_scans_all (mem : Memory) (ext : Externals)
    (base ob target : Nat) (mName : List Nat) (sF tF : Nat) :
    ∀ (n f d0 s : Nat),
    (∀ k, k < n →
      read32 mem (d0 + 20 * k + 12) ≠ 0 ∧
      (striEq (readCString mem sF (base + read32 mem (d0 + 20 * k + 12))) mName
          = true →
        scanThunks mem ext ob target tF (base + read32 mem (d0 + 20 * k))
          (base + read32 mem (d0 + 20 * k + 16)) = none)) →
    read32 mem (d0 + 20 * n + 12) ≠ 0 →
    striEq (readCString mem sF (base + read32 mem (d0 + 20 * n + 12))) mName
      = true →
    scanThunks mem ext ob target tF (base + read32 mem (d0 + 20 * n))
      (base + read32 mem (d0 + 20 * n + 16)) = some s →
    n < f →
    scanDescs mem ext base ob target mName sF tF f d0 = some s := by
  intro n
  induction n with
  | zero =>
    intro f d0 s _ hname hmatch hthunk hf
    cases f with
    | zero => omega
    | succ f =>
      simp only [Nat.mul_zero, Nat.add_zero] at hname hmatch hthunk
      simp only [scanDescs]
      rw [if_neg hname, if_pos hmatch, hthunk]
  | succ n ih =>
    intro f d0 s hpre hname hmatch hthunk hf
    cases f with
    | zero => omega
    | succ f =>
      have h0 := hpre 0 (by omega)
      simp only [Nat.mul_zero, Nat.add_zero] at h0
      have hstep : scanDescs mem ext base ob target mName sF tF (f + 1) d0
          = scanDescs mem ext base ob target mName sF tF f (d0 + 20) := by
        simp only [scanDescs]
        rw [if_neg h0.1]
        by_cases hm :
            striEq (readCString mem sF (base + read32 mem (d0 + 12))) mName
              = true
        · rw [if_pos hm, h0.2 hm]
        · rw [if_neg hm]
      rw [hstep]
      apply ih f (d0 + 20) s
      · intro k hk
        have := hpre (k + 1) (by omega)
        rw [show d0 + 20 * (k + 1) = d0 + 20 + 20 * k by ring] at this
        exact this
      · rw [show d0 + 20 + 20 * n = d0 + 20 * (n + 1) by ring]
        exact hname
      · rw [show d0 + 20 + 20 * n = d0 + 20 * (n + 1) by ring]
        exact hmatch
      · rw [show d0 + 20 + 20 * n = d0 + 20 * (n + 1) by ring]
        exact hthunk
      · omega

/-- Witness for C3: the concrete memory has a first descriptor matching "m"
whose inner walk finds nothing, and the walk goes on to the second
matching descriptor and returns its slot 600. -/
theorem scanDescs_scans_all_witness :
    scanDescs memC3 extZero 0 0 5 [109] 4 4 4 100 = some 600 :=
  scanDescs_scans_all memC3 extZero 0 0 5 [109] 4 4 1 4 100 600 (by decide)
    (by decide) (by decide) (by decide) (by decide)

end NT
